import Mathlib

/-!
The jlcxx arrays and tuples: an embedding of `array.hpp` and `tuple.hpp`.

The development has three layers.

* The host runtime primitives that the two headers call (`jl_typeof`,
  `jl_new_structv`, `jl_array_grow_end`, ...) are given as small executable
  functions on an explicit representation of host values and host arrays.
* The code of `array.hpp` (`ValueExtractor`, `array_iterator_base`, `Array`,
  `ArrayRef`, `wrap_array`) and of `tuple.hpp` (`AppendTupleValues`,
  `new_jl_tuple`, `ConvertToJulia`, `ConvertToCpp`) is translated function by
  function on top of these primitives.
* The theorems at the end state the behaviour of that code.

Conventions.  A raw pointer into array storage is an `Int` counted in cells, so
that `p + n` and `p - q` are the C++ pointer operations; address `0` is the null
data pointer.  A handle `jl_array_t*` is an `Option`: `none` is `nullptr`.
Template parameters are ordinary arguments.  The GC rooting statements
(`JL_GC_PUSH*`, `JL_GC_POP`) do not change any value and are omitted.
-/

namespace jlcxx

/-! ## Host runtime: types and values -/

/-- Host type descriptors: named leaf types, tuple types and array types. -/
inductive jl_datatype_t where
  | named (id : Nat)
  | tuple (params : List jl_datatype_t)
  | array (elt : jl_datatype_t) (dim : Nat)

/-- Host values.  Every value carries its runtime type tag; a `leaf` has a
payload of type `H` and no fields, a `struct` has positional fields. -/
inductive jl_value_t (H : Type) where
  | leaf (ty : jl_datatype_t) (payload : H)
  | struct (ty : jl_datatype_t) (fields : List (jl_value_t H))

/-- Runtime type tag of a host value. -/
def jl_typeof {H : Type} : jl_value_t H → jl_datatype_t
  | .leaf ty _ => ty
  | .struct ty _ => ty

/-- Positional fields of a host value (`jl_nfields` is the length). -/
def jl_fields {H : Type} : jl_value_t H → List (jl_value_t H)
  | .leaf _ _ => []
  | .struct _ fs => fs

/-- Number of fields of a host value. -/
def jl_nfields {H : Type} (v : jl_value_t H) : Nat := (jl_fields v).length

/-- Tuple type with the given parameter types. -/
def jl_apply_tuple_type_v (types : List jl_datatype_t) : jl_datatype_t :=
  .tuple types

/-- Parameter types of a tuple type (empty for any other descriptor). -/
def jl_tuple_params : jl_datatype_t → List jl_datatype_t
  | .tuple ps => ps
  | _ => []

/-- New host struct value of type `dt` with the given field values. -/
def jl_new_structv {H : Type} (dt : jl_datatype_t) (args : List (jl_value_t H)) :
    jl_value_t H :=
  .struct dt args

/-- Array type with element type `elt` and `dim` dimensions. -/
def apply_array_type (elt : jl_datatype_t) (dim : Nat) : jl_datatype_t :=
  .array elt dim

/-- Failures raised while converting a host value to a native one. -/
inductive ConvError where
  | field_access (i : Nat)
  | type_mismatch
  deriving DecidableEq, Repr

/-- Checked field access: field `i` of `v`, or a field-access error when `v`
has no field `i`. -/
def jl_get_nth_field_checked {H : Type} (v : jl_value_t H) (i : Nat) :
    Except ConvError (jl_value_t H) :=
  match (jl_fields v)[i]? with
  | some f => .ok f
  | none => .error (.field_access i)

/-! ## Host runtime: arrays -/

/-- Host array object.  `data` is the address of cell `0`; `cells` is the
storage, where `none` is a cell that was allocated or grown but never written;
`ndims` is the number of dimensions. -/
structure jl_array_t (S : Type) where
  atype : jl_datatype_t
  ndims : Nat
  data : Int
  cells : List (Option S)
  julia_owned : Bool

/-- Where the host places array storage. -/
structure Host where
  -- address of the storage of a freshly allocated array of `n` cells
  place : Nat → Int
  -- address of the storage after a resize from address `p` to `n` cells
  moved : Int → Nat → Int

/-- Logical length of a host array. -/
def jl_array_len {S : Type} (a : jl_array_t S) : Nat := a.cells.length

/-- Raw data pointer of a host array. -/
def jl_array_data {S : Type} (a : jl_array_t S) : Int := a.data

/-- Number of dimensions of a host array. -/
def jl_array_ndims {S : Type} (a : jl_array_t S) : Nat := a.ndims

/-- New one-dimensional host array of `n` unwritten cells. -/
def jl_alloc_array_1d {S : Type} (h : Host) (atype : jl_datatype_t) (n : Nat) :
    jl_array_t S :=
  { atype := atype, ndims := 1, data := h.place n,
    cells := List.replicate n none, julia_owned := true }

/-- Grow the array by `inc` unwritten cells at the end; the storage may move. -/
def jl_array_grow_end {S : Type} (h : Host) (a : jl_array_t S) (inc : Nat) :
    jl_array_t S :=
  { a with data := h.moved a.data (a.cells.length + inc),
           cells := a.cells ++ List.replicate inc none }

/-- Store a reference to a boxed value in cell `i`. -/
def jl_array_ptr_set {S : Type} (a : jl_array_t S) (i : Nat) (x : S) : jl_array_t S :=
  { a with cells := a.cells.set i (some x) }

/-- Host array over an existing native buffer at `data`, whose current
contents are `mem`; no cell is copied. -/
def jl_ptr_to_array {S : Type} (mem : Int → Option S) (atype : jl_datatype_t)
    (data : Int) (dims : List Nat) (own_buffer : Bool) : jl_array_t S :=
  { atype := atype, ndims := dims.length, data := data,
    cells := (List.range dims.prod).map (fun (i : Nat) => mem (data + (i : Int))),
    julia_owned := own_buffer }

/-- Read through a raw pointer into the storage of `a`: the value of the cell
at address `p`, `none` outside the storage or on an unwritten cell. -/
def jl_array_t.load {S : Type} (a : jl_array_t S) (p : Int) : Option S :=
  if a.data ≤ p ∧ p < a.data + (a.cells.length : Int) then
    (a.cells[(p - a.data).toNat]?).join
  else none

/-- Write through a raw pointer into the storage of `a`; a write outside the
storage leaves the cells of `a` as they are. -/
def jl_array_t.store {S : Type} (a : jl_array_t S) (p : Int) (x : S) : jl_array_t S :=
  if a.data ≤ p ∧ p < a.data + (a.cells.length : Int) then
    { a with cells := a.cells.set (p - a.data).toNat (some x) }
  else a

/-! ## array.hpp -/

/-- The data pointer of a host array (`jlcxx_array_data`, lines 11-18). -/
def jlcxx_array_data {S : Type} (arr : jl_array_t S) : Int := jl_array_data arr

/-- General `ValueExtractor` (lines 20-27): read the cell at `p` and convert it
with `convert_to_cpp`. -/
def ValueExtractor {P C : Type} (convert_to_cpp : P → C) (mem : Int → Option P)
    (p : Int) : Option C :=
  (mem p).map convert_to_cpp

/-- Specialisation of `ValueExtractor` for `PointedT = CppT` (lines 30-37): the
cell itself. -/
def ValueExtractor_same {P : Type} (mem : Int → Option P) (p : Int) : Option P :=
  mem p

/-- Iterator over raw storage (lines 39-110): one raw pointer. -/
structure array_iterator_base where
  m_ptr : Int
  deriving DecidableEq, Repr

namespace array_iterator_base

/-- Default constructor: the null pointer. -/
def default : array_iterator_base := ⟨0⟩

/-- Accessor `ptr()`. -/
def ptr (it : array_iterator_base) : Int := it.m_ptr

/-- Dereference, `operator*`, in the general case. -/
def deref {P C : Type} (convert_to_cpp : P → C) (mem : Int → Option P)
    (it : array_iterator_base) : Option C :=
  ValueExtractor convert_to_cpp mem it.m_ptr

/-- Dereference, `operator*`, when `PointedT = CppT`. -/
def deref_same {P : Type} (mem : Int → Option P) (it : array_iterator_base) : Option P :=
  ValueExtractor_same mem it.m_ptr

/-- Result of a member operator: the operand after the call and the value the
call returns. -/
structure Stepped where
  operand : array_iterator_base
  result : array_iterator_base
  deriving DecidableEq, Repr

/-- Pre-increment, `operator++()`. -/
def pre_inc (it : array_iterator_base) : Stepped :=
  let it1 : array_iterator_base := ⟨it.m_ptr + 1⟩
  ⟨it1, it1⟩

/-- Post-increment, `operator++(int)`. -/
def post_inc (it : array_iterator_base) : Stepped :=
  let result := it
  ⟨(pre_inc it).operand, result⟩

/-- Pre-decrement, `operator--()`. -/
def pre_dec (it : array_iterator_base) : Stepped :=
  let it1 : array_iterator_base := ⟨it.m_ptr - 1⟩
  ⟨it1, it1⟩

/-- Post-decrement, `operator--(int)`. -/
def post_dec (it : array_iterator_base) : Stepped :=
  let result := it
  ⟨(pre_dec it).operand, result⟩

/-- Compound addition, `operator+=`. -/
def add_assign (it : array_iterator_base) (n : Int) : Stepped :=
  let it1 : array_iterator_base := ⟨it.m_ptr + n⟩
  ⟨it1, it1⟩

/-- Compound subtraction, `operator-=`. -/
def sub_assign (it : array_iterator_base) (n : Int) : Stepped :=
  let it1 : array_iterator_base := ⟨it.m_ptr - n⟩
  ⟨it1, it1⟩

/-- Free `operator!=` (line 440). -/
def ne (l r : array_iterator_base) : Bool := r.ptr != l.ptr

/-- Free `operator==` (line 446). -/
def eq (l r : array_iterator_base) : Bool := r.ptr == l.ptr

/-- Free `operator<=`. -/
def le (l r : array_iterator_base) : Bool := decide (l.ptr ≤ r.ptr)

/-- Free `operator>=`. -/
def ge (l r : array_iterator_base) : Bool := decide (l.ptr ≥ r.ptr)

/-- Free `operator>`. -/
def gt (l r : array_iterator_base) : Bool := decide (l.ptr > r.ptr)

/-- Free `operator<`. -/
def lt (l r : array_iterator_base) : Bool := decide (l.ptr < r.ptr)

/-- Free `operator+(iterator, ptrdiff_t)`. -/
def add (l : array_iterator_base) (n : Int) : array_iterator_base := ⟨l.ptr + n⟩

/-- Free `operator+(ptrdiff_t, iterator)`. -/
def radd (n : Int) (r : array_iterator_base) : array_iterator_base := ⟨r.ptr + n⟩

/-- Free `operator-(iterator, ptrdiff_t)`. -/
def sub (l : array_iterator_base) (n : Int) : array_iterator_base := ⟨l.ptr - n⟩

/-- Free `operator-(iterator, iterator)`: the distance. -/
def diff (l r : array_iterator_base) : Int := l.ptr - r.ptr

end array_iterator_base

/-! ### Owned array, `Array<ValueT>` (lines 112-165) -/

/-- What a written cell of the storage of an `Array<ValueT>` holds: a native
value stored in place, or a reference to a boxed host value. -/
inductive Stored (V J : Type) where
  | raw (v : V)
  | ref (j : J)
  deriving DecidableEq, Repr

/-- Compile-time facts about the element type `ValueT` and its boxing function:
`julia_type<ValueT>()`, `IsMirroredType<ValueT>::value`,
`std::is_pointer<ValueT>::value` and `box<ValueT>`. -/
structure ElemTraits (V J : Type) where
  julia_type : jl_datatype_t
  IsMirroredType : Bool
  is_pointer : Bool
  box : V → J

/-- The class `Array<ValueT>`: one handle to an array allocated by the class
itself, hence never null. -/
structure Array (V J : Type) where
  m_array : jl_array_t (Stored V J)

/-- Program state while member functions of an `Array` run: the object and the
list of arguments `box` has been called with so far, oldest first. -/
structure Exec (V J : Type) where
  self : Array V J
  box_calls : List V

/-- Constructor `Array(n)` (lines 117-121). -/
def Array.ctor {V J : Type} (h : Host) (E : ElemTraits V J) (n : Nat) : Array V J :=
  let array_type := apply_array_type E.julia_type 1
  ⟨jl_alloc_array_1d h array_type n⟩

/-- Constructor `Array(applied_type, n)` (lines 123-127). -/
def Array.ctor_applied {V J : Type} (h : Host) (applied_type : jl_datatype_t) (n : Nat) :
    Array V J :=
  let array_type := apply_array_type applied_type 1
  ⟨jl_alloc_array_1d h array_type n⟩

/-- Accessor `wrapped()`. -/
def Array.wrapped {V J : Type} (a : Array V J) : jl_array_t (Stored V J) := a.m_array

/-- State right after the constructor `Array(n)`: no call of `box` yet. -/
def Exec.start {V J : Type} (h : Host) (E : ElemTraits V J) (n : Nat) : Exec V J :=
  ⟨Array.ctor h E n, []⟩

/-- Line 135: `jl_array_grow_end(m_array, 1)`. -/
def Exec.grow {V J : Type} (h : Host) (s : Exec V J) : Exec V J :=
  { s with self := ⟨jl_array_grow_end h s.self.m_array 1⟩ }

/-- Lines 139-140: fetch the data pointer, then `rawarray[pos] = val`. -/
def Exec.write_raw {V J : Type} (pos : Nat) (val : V) (s : Exec V J) : Exec V J :=
  let rawarray := jlcxx_array_data s.self.wrapped
  { s with self := ⟨s.self.m_array.store (rawarray + (pos : Int)) (.raw val)⟩ }

/-- Line 145: `jval = box<ValueT>(val)`; the call is recorded. -/
def Exec.call_box {V J : Type} (E : ElemTraits V J) (val : V) (s : Exec V J) :
    J × Exec V J :=
  (E.box val, { s with box_calls := s.box_calls ++ [val] })

/-- Line 146: `jl_array_ptr_set(m_array, pos, jval)`. -/
def Exec.ptr_set {V J : Type} (pos : Nat) (jval : J) (s : Exec V J) : Exec V J :=
  { s with self := ⟨jl_array_ptr_set s.self.m_array pos (.ref jval)⟩ }

/-- Member `Array::push_back` (lines 129-149). -/
def Array.push_back {V J : Type} (h : Host) (E : ElemTraits V J) (val : V)
    (s : Exec V J) : Exec V J :=
  let pos := jl_array_len s.self.m_array
  let s1 := s.grow h
  if E.IsMirroredType && !E.is_pointer then
    s1.write_raw pos val
  else
    let r := s1.call_box E val
    r.2.ptr_set pos r.1

/-- The states `Array::push_back` passes through, statement by statement: on
entry, after the grow, (after the call of `box`,) after the write. -/
def Array.push_back_trace {V J : Type} (h : Host) (E : ElemTraits V J) (val : V)
    (s : Exec V J) : List (Exec V J) :=
  let pos := jl_array_len s.self.m_array
  let s1 := s.grow h
  if E.IsMirroredType && !E.is_pointer then
    [s, s1, s1.write_raw pos val]
  else
    let r := s1.call_box E val
    [s, s1, r.2, r.2.ptr_set pos r.1]

/-- Representation in which `push_back` leaves a value in its cell. -/
def ElemTraits.stored {V J : Type} (E : ElemTraits V J) (v : V) : Stored V J :=
  if E.IsMirroredType && !E.is_pointer then .raw v else .ref (E.box v)

/-- The native value a written cell stands for, where a boxed value is read
back with `unbox`. -/
def Stored.value {V J : Type} (unbox : J → V) : Stored V J → V
  | .raw v => v
  | .ref j => unbox j

/-- Calling `push_back` with each value of `vs` in order. -/
def Array.push_all {V J : Type} (h : Host) (E : ElemTraits V J) (vs : List V)
    (s : Exec V J) : Exec V J :=
  vs.foldl (fun st v => Array.push_back h E v st) s

/-! ### Array view, `ArrayRef<ValueT, Dim>` (lines 184-292, 344-372) -/

/-- Fatal failures of a construction. -/
inductive Failure where
  | assertion_failed
  deriving DecidableEq, Repr

/-- The class `ArrayRef<ValueT, Dim>` with cell type `julia_t`: one handle,
`none` being `nullptr`. -/
structure ArrayRef (julia_t : Type) (Dim : Nat) where
  m_array : Option (jl_array_t julia_t)

/-- Accessor `wrapped()` (lines 207-210). -/
def ArrayRef.wrapped {P : Type} {Dim : Nat} (r : ArrayRef P Dim) :
    Option (jl_array_t P) := r.m_array

/-- Constructor `ArrayRef(jl_array_t*)` (lines 191-194): store the handle, then
`assert(wrapped() != nullptr)`.  The assertion is taken with its checking
meaning: a false condition ends the construction with a failure. -/
def ArrayRef.attach {P : Type} (Dim : Nat) (arr : Option (jl_array_t P)) :
    Except Failure (ArrayRef P Dim) :=
  let self : ArrayRef P Dim := ⟨arr⟩
  if self.wrapped.isSome then .ok self else .error .assertion_failed

/-- Member `begin()`; undefined (`none`) on a null handle. -/
def ArrayRef.begin {P : Type} {Dim : Nat} (r : ArrayRef P Dim) :
    Option array_iterator_base :=
  r.wrapped.map (fun a => ⟨jlcxx_array_data a⟩)

/-- Member `end()`; undefined (`none`) on a null handle. -/
def ArrayRef.end_ {P : Type} {Dim : Nat} (r : ArrayRef P Dim) :
    Option array_iterator_base :=
  r.wrapped.map (fun a => ⟨jlcxx_array_data a + (jl_array_len a : Int)⟩)

/-- Member `size()`. -/
def ArrayRef.size {P : Type} {Dim : Nat} (r : ArrayRef P Dim) : Option Nat :=
  r.wrapped.map jl_array_len

/-- Member `data()`. -/
def ArrayRef.data {P : Type} {Dim : Nat} (r : ArrayRef P Dim) : Option Int :=
  r.wrapped.map jlcxx_array_data

/-- The states of the wrapped array during `ArrayRef::push_back` (lines
232-242): on entry, after the grow, after `data()[pos] = val`.  Empty on a
null handle. -/
def ArrayRef.push_back_trace {V : Type} (h : Host) (val : V) (r : ArrayRef V 1) :
    List (jl_array_t V) :=
  match r.wrapped with
  | none => []
  | some arr_ptr =>
    let pos := jl_array_len arr_ptr
    let arr1 := jl_array_grow_end h arr_ptr 1
    [arr_ptr, arr1, arr1.store (jlcxx_array_data arr1 + (pos : Int)) val]

/-- Member `ArrayRef::push_back` (lines 232-242), available for `Dim = 1` and
`julia_t = ValueT` only; undefined (`none`) on a null handle. -/
def ArrayRef.push_back {V : Type} (h : Host) (val : V) (r : ArrayRef V 1) :
    Option (ArrayRef V 1) :=
  match r.wrapped with
  | none => none
  | some arr_ptr =>
    let pos := jl_array_len arr_ptr
    let arr1 := jl_array_grow_end h arr_ptr 1
    some ⟨some (arr1.store (jlcxx_array_data arr1 + (pos : Int)) val)⟩

/-- Host type of `ArrayRef<T, Dim>` (`julia_type_factory`, lines 334-342);
`packed` is `detail::PackedArrayType<T>::type()`. -/
def julia_type_ArrayRef (packed : jl_datatype_t) (Dim : Nat) : jl_datatype_t :=
  apply_array_type packed Dim

/-- Function `wrap_array` (lines 344-354).  `sizes` is the argument pack and
`mem` the contents of the native buffer; the dims tuple has one field per
size. -/
def wrap_array {S : Type} (packed : jl_datatype_t) (mem : Int → Option S)
    (julia_owned : Bool) (c_ptr : Int) (sizes : List Nat) : jl_array_t S :=
  let dt := julia_type_ArrayRef packed sizes.length
  let dims := sizes
  jl_ptr_to_array mem dt c_ptr dims julia_owned

/-- Constructor `ArrayRef(julia_t*, sizes...)` (lines 356-360). -/
def ArrayRef.of_buffer {S : Type} (Dim : Nat) (packed : jl_datatype_t)
    (mem : Int → Option S) (c_ptr : Int) (sizes : List Nat) :
    Except Failure (ArrayRef S Dim) :=
  .ok ⟨some (wrap_array packed mem false c_ptr sizes)⟩

/-- Constructor `ArrayRef(julia_owned, julia_t*, sizes...)` (lines 362-366). -/
def ArrayRef.of_buffer_owned {S : Type} (Dim : Nat) (packed : jl_datatype_t)
    (mem : Int → Option S) (julia_owned : Bool) (c_ptr : Int) (sizes : List Nat) :
    Except Failure (ArrayRef S Dim) :=
  .ok ⟨some (wrap_array packed mem julia_owned c_ptr sizes)⟩

/-- Function `make_julia_array` (lines 368-372): the static dimension of the
result is the number of sizes. -/
def make_julia_array {S : Type} (packed : jl_datatype_t) (mem : Int → Option S)
    (c_ptr : Int) (sizes : List Nat) : Except Failure (ArrayRef S sizes.length) :=
  ArrayRef.of_buffer_owned sizes.length packed mem false c_ptr sizes

/-! ## tuple.hpp -/

/-- Static native types: leaf types named by `T`, and `std::tuple` of types. -/
inductive CppType (T : Type) where
  | leaf (t : T)
  | tuple (ts : List (CppType T))

/-- Native values, each carrying its static type: a leaf value of leaf type
`t`, or a `std::tuple` of values (a native record). -/
inductive CppVal (T L : Type) where
  | leaf (t : T) (v : L)
  | tuple (elems : List (CppVal T L))

/-- The boxing system for leaf types, an external collaborator: the static
host type `julia_type<T>()`, `box<T>` and `unbox<T>`. -/
structure Boxing (T L H : Type) where
  julia_type : T → jl_datatype_t
  box : T → L → jl_value_t H
  unbox : T → jl_value_t H → Except ConvError L

mutual
/-- Static type of a native value. -/
def CppVal.typeOf {T L : Type} : CppVal T L → CppType T
  | .leaf t _ => .leaf t
  | .tuple vs => .tuple (CppVal.typesOf vs)
/-- Static types of the elements of a native record. -/
def CppVal.typesOf {T L : Type} : List (CppVal T L) → List (CppType T)
  | [] => []
  | v :: vs => CppVal.typeOf v :: CppVal.typesOf vs
end

mutual
/-- Leaf types occurring in a native value. -/
def CppVal.leafTypes {T L : Type} : CppVal T L → List T
  | .leaf t _ => [t]
  | .tuple vs => CppVal.leafTypesAll vs
/-- Leaf types occurring in the elements of a native record. -/
def CppVal.leafTypesAll {T L : Type} : List (CppVal T L) → List T
  | [] => []
  | v :: vs => CppVal.leafTypes v ++ CppVal.leafTypesAll vs
end

mutual
/-- Static host type `julia_type<T>()`; for `std::tuple<TypesT...>` it is the
tuple type of the static host types (`julia_type_factory`, lines 107-124). -/
def julia_type {T L H : Type} (B : Boxing T L H) : CppType T → jl_datatype_t
  | .leaf t => B.julia_type t
  | .tuple ts => .tuple (julia_types B ts)
/-- Static host types of a parameter pack. -/
def julia_types {T L H : Type} (B : Boxing T L H) : List (CppType T) → List jl_datatype_t
  | [] => []
  | t :: ts => julia_type B t :: julia_types B ts
end

mutual
/-- Modelled from the spec: `box<T>` of `type_conversion.hpp`, which is not
among the sources.  A leaf goes to the external boxing mechanism; an element
that is itself a tuple goes through the tuple machinery again, that is through
the body of `new_jl_tuple` (lines 33-59). -/
def box {T L H : Type} (B : Boxing T L H) : CppVal T L → jl_value_t H
  | .leaf t v => B.box t v
  | .tuple tp =>
    let args := AppendTupleValues B tp
    let concrete_types := args.map jl_typeof
    let concrete_dt := jl_apply_tuple_type_v concrete_types
    jl_new_structv concrete_dt args
/-- The recursion `AppendTupleValues<I, N>::apply` (lines 13-31) on the
elements at positions `I, ..., N-1`: the boxed values it writes to
`boxed[I], ..., boxed[N-1]`. -/
def AppendTupleValues {T L H : Type} (B : Boxing T L H) :
    List (CppVal T L) → List (jl_value_t H)
  | [] => []
  | v :: vs => box B v :: AppendTupleValues B vs
end

/-- Function `detail::new_jl_tuple` (lines 33-59). -/
def new_jl_tuple {T L H : Type} (B : Boxing T L H) (tp : List (CppVal T L)) :
    jl_value_t H :=
  let args := AppendTupleValues B tp
  let concrete_types := args.map jl_typeof
  let concrete_dt := jl_apply_tuple_type_v concrete_types
  jl_new_structv concrete_dt args

/-- Conversion `ConvertToJulia<std::tuple<TypesT...>, TupleTrait>` (lines
126-133). -/
def ConvertToJulia {T L H : Type} (B : Boxing T L H) (tp : List (CppVal T L)) :
    jl_value_t H :=
  new_jl_tuple B tp

/-- Order in which the arguments of a call are evaluated, which C++ leaves to
the compiler: `order ts` lists the argument positions of a call with parameter
pack `ts` in the order they are evaluated, each position exactly once. -/
structure EvalOrder (T : Type) where
  order : List (CppType T) → List Nat
  valid : ∀ ts, (order ts).Perm (List.range ts.length)

/-- Arguments evaluated from the first to the last. -/
def EvalOrder.left_to_right {T : Type} : EvalOrder T :=
  ⟨fun ts => List.range ts.length, fun _ => List.Perm.refl _⟩

/-- Arguments evaluated from the last to the first. -/
def EvalOrder.right_to_left {T : Type} : EvalOrder T :=
  ⟨fun ts => (List.range ts.length).reverse, fun _ => List.reverse_perm _⟩

/-- The failure of the first argument, in evaluation order, whose evaluation
fails; `none` when no argument fails.  `args` holds, by position, what the
evaluation of each argument gives. -/
def first_thrown {E α : Type} : List Nat → List (Except E α) → Option E
  | [], _ => none
  | i :: rest, args =>
    match args[i]? with
    | some (.error e) => some e
    | _ => first_thrown rest args

/-- The values of all arguments, by position. -/
def all_values {E α : Type} : List (Except E α) → Except E (List α)
  | [] => .ok []
  | .error e :: _ => .error e
  | .ok x :: rest =>
    match all_values rest with
    | .error e => .error e
    | .ok xs => .ok (x :: xs)

/-- The call `std::make_tuple(args...)` (line 144) with its arguments evaluated
in the given order: the first failing argument ends the call with its failure;
when none fails the result is the tuple of the values, by position. -/
def make_tuple {E α : Type} (order : List Nat) (args : List (Except E α)) :
    Except E (List α) :=
  match first_thrown order args with
  | some e => .error e
  | none => all_values args

mutual
/-- Modelled from the spec: `unbox<T>` of `type_conversion.hpp`, which is not
among the sources.  A leaf goes to the external unboxing mechanism; for a tuple
type the tuple machinery is applied again, that is the body of `ConvertToCpp`
(lines 135-148). -/
def unbox {T L H : Type} (B : Boxing T L H) (O : EvalOrder T) :
    CppType T → jl_value_t H → Except ConvError (CppVal T L)
  | .leaf t, j => (B.unbox t j).map (CppVal.leaf t)
  | .tuple ts, j => (make_tuple (O.order ts) (unpack_args B O ts 0 j)).map CppVal.tuple
/-- The pack expansion of line 144 for the element types at positions
`i, i+1, ...`: for each position, what evaluating the argument
`unbox<T>(jl_get_nth_field_checked(julia_val, Is))` gives. -/
def unpack_args {T L H : Type} (B : Boxing T L H) (O : EvalOrder T) :
    List (CppType T) → Nat → jl_value_t H → List (Except ConvError (CppVal T L))
  | [], _, _ => []
  | t :: ts, i, julia_val =>
    (match jl_get_nth_field_checked julia_val i with
      | .error e => .error e
      | .ok f => unbox B O t f) :: unpack_args B O ts (i + 1) julia_val
end

/-- One argument of the pack expansion of line 144,
`unbox<T>(jl_get_nth_field_checked(julia_val, i))`. -/
def unpack_arg {T L H : Type} (B : Boxing T L H) (O : EvalOrder T) (t : CppType T)
    (i : Nat) (julia_val : jl_value_t H) : Except ConvError (CppVal T L) :=
  match jl_get_nth_field_checked julia_val i with
  | .error e => .error e
  | .ok f => unbox B O t f

/-- The lambda `unpack_tuple` (lines 142-145) applied to the index sequence
`0, ..., K-1`: `std::make_tuple` of the `K` unboxed fields, its arguments being
evaluated in the order `O` gives for the pack `ts`. -/
def unpack_tuple {T L H : Type} (B : Boxing T L H) (O : EvalOrder T)
    (ts : List (CppType T)) (julia_val : jl_value_t H) :
    Except ConvError (List (CppVal T L)) :=
  make_tuple (O.order ts) (unpack_args B O ts 0 julia_val)

/-- Conversion `ConvertToCpp<std::tuple<TypesT...>, TupleTrait>` (lines
135-148); `ts` is the parameter pack `TypesT...`. -/
def ConvertToCpp {T L H : Type} (B : Boxing T L H) (O : EvalOrder T)
    (ts : List (CppType T)) (julia_val : jl_value_t H) :
    Except ConvError (List (CppVal T L)) :=
  unpack_tuple B O ts julia_val

/-- A leaf type whose values survive boxing followed by unboxing. -/
def Boxing.RoundTrips {T L H : Type} (B : Boxing T L H) (t : T) : Prop :=
  ∀ v : L, B.unbox t (B.box t v) = .ok v

/-! ## Sample data used in the concrete statements -/

/-- A host with storage placed at address `1000 + n`. -/
def sampleHost : Host := ⟨fun n => 1000 + (n : Int), fun _ n => 1000 + (n : Int)⟩

/-- A mirrored, non-pointer element type whose `box` doubles the value. -/
def mirroredInt : ElemTraits Int Int := ⟨.named 0, true, false, fun v => 2 * v⟩

/-- An element type that is not mirrored; `box` adds one hundred. -/
def boxedInt : ElemTraits Int Int := ⟨.named 1, false, false, fun v => v + 100⟩

/-- A one-dimensional host array of three written cells at address `100`. -/
def sampleArray : jl_array_t Int :=
  { atype := .array (.named 0) 1, ndims := 1, data := 100,
    cells := [some 5, some 7, some 9], julia_owned := true }

/-- A view attached to `sampleArray`. -/
def sampleView : ArrayRef Int 1 := ⟨some sampleArray⟩

/-- A leaf boxing system: leaf type `0` boxes to a host value of the static
type; any other leaf type `t` boxes to a host value of type `named (t + 10)`,
which differs from its static type `named t`.  Unboxing reads the payload. -/
def sampleBoxing : Boxing Nat Int Int :=
  { julia_type := fun t => .named t,
    box := fun t v => .leaf (.named (if t = 0 then 0 else t + 10)) v,
    unbox := fun _ j =>
      match j with
      | .leaf _ p => .ok p
      | .struct _ _ => .error .type_mismatch }

/-! ## Theorems: auxiliary facts about storage -/

theorem load_data_add {S : Type} (a : jl_array_t S) (i : Nat) (hi : i < a.cells.length) :
    a.load (a.data + (i : Int)) = a.cells.get ⟨i, hi⟩ := by
  have h1 : a.data ≤ a.data + (i : Int) ∧ a.data + (i : Int) < a.data + (a.cells.length : Int) := by
    constructor <;> omega
  have h2 : (a.data + (i : Int) - a.data).toNat = i := by omega
  simp only [jl_array_t.load, if_pos h1, h2]
  simp [List.getElem?_eq_getElem hi]

theorem store_data_add {S : Type} (a : jl_array_t S) (i : Nat) (x : S)
    (hi : i < a.cells.length) :
    a.store (a.data + (i : Int)) x = { a with cells := a.cells.set i (some x) } := by
  have h1 : a.data ≤ a.data + (i : Int) ∧ a.data + (i : Int) < a.data + (a.cells.length : Int) := by
    constructor <;> omega
  have h2 : (a.data + (i : Int) - a.data).toNat = i := by omega
  simp only [jl_array_t.store, if_pos h1, h2]

theorem set_append_unset {S : Type} (cs : List (Option S)) (x : S) :
    (cs ++ [none]).set cs.length (some x) = cs ++ [some x] := by
  induction cs with
  | nil => rfl
  | cons c cs ih => simp [List.set, ih]

/-! ## Theorems: iterators and views -/

/-- C10: the operators of `array_iterator_base` form a consistent pointer
algebra.  For every iterator `it`, all offsets `n`, `m` and every pair `a`, `b`:
`(it + n) - it = n`; `(it + n) - n == it`; `n + it == it + n`;
`(it + n) + m == it + (n + m)`; pre-increment followed by pre-decrement gives
back an iterator equal to the original; post-increment and post-decrement
return the value before the step and move the operand by exactly one;
`a != b` is the negation of `a == b`; and `<`, `<=`, `>`, `>=` agree with the
sign of `a - b`.  Here `==` is the operator of the source, which holds exactly
when the two iterators are the same. -/
theorem iterator_pointer_algebra (it a b : array_iterator_base) (n m : Int) :
    (it.add n).diff it = n ∧
    ((it.add n).sub n).eq it = true ∧
    (array_iterator_base.radd n it).eq (it.add n) = true ∧
    ((it.add n).add m).eq (it.add (n + m)) = true ∧
    (it.pre_inc.result.pre_dec.result).eq it = true ∧
    (it.pre_inc.operand.pre_dec.operand).eq it = true ∧
    it.pre_inc.result = it.pre_inc.operand ∧
    it.pre_dec.result = it.pre_dec.operand ∧
    (it.post_inc.result.eq it = true ∧ it.post_inc.operand.diff it = 1) ∧
    (it.post_dec.result.eq it = true ∧ it.diff it.post_dec.operand = 1) ∧
    ((it.add_assign n).operand = it.add n ∧ (it.sub_assign n).operand = it.sub n) ∧
    (a.eq b = true ↔ a = b) ∧
    a.ne b = !(a.eq b) ∧
    (a.lt b = true ↔ a.diff b < 0) ∧
    (a.le b = true ↔ a.diff b ≤ 0) ∧
    (a.gt b = true ↔ 0 < a.diff b) ∧
    (a.ge b = true ↔ 0 ≤ a.diff b) := by
  obtain ⟨p⟩ := it
  obtain ⟨x⟩ := a
  obtain ⟨y⟩ := b
  simp only [array_iterator_base.add, array_iterator_base.sub, array_iterator_base.radd,
    array_iterator_base.diff, array_iterator_base.eq, array_iterator_base.ne,
    array_iterator_base.lt, array_iterator_base.le, array_iterator_base.gt,
    array_iterator_base.ge, array_iterator_base.ptr, array_iterator_base.pre_inc,
    array_iterator_base.pre_dec, array_iterator_base.post_inc, array_iterator_base.post_dec,
    array_iterator_base.add_assign, array_iterator_base.sub_assign]
  refine ⟨by omega, by simp, by simp, by simp [add_assoc], by simp, by simp, trivial, trivial,
    ⟨by simp, by omega⟩, ⟨by simp, by omega⟩, ⟨trivial, trivial⟩, ?_, ?_, ?_, ?_, ?_, ?_⟩
  · simp only [beq_iff_eq, array_iterator_base.mk.injEq]
    exact eq_comm
  · simp [bne]
  · simp only [decide_eq_true_eq]; omega
  · simp only [decide_eq_true_eq]; omega
  · simp only [decide_eq_true_eq]; omega
  · simp only [decide_eq_true_eq]; omega

/-- C3: for every view over an array of length `n`, `begin() + n == end()` and
`end() - begin() = n`; for every `i < n`, dereferencing `begin() + i` yields
the element stored at position `i` (converted by `convert_to_cpp` in the
general `ValueExtractor`, the cell itself when the types coincide); and
`begin() == end()` holds if and only if `n = 0`. -/
theorem ArrayRef_begin_end_exact {P C : Type} {Dim : Nat} (convert_to_cpp : P → C)
    (r : ArrayRef P Dim) (a : jl_array_t P) (hr : r.wrapped = some a) :
    ∃ b e : array_iterator_base, r.begin = some b ∧ r.end_ = some e ∧
      (b.add (jl_array_len a)).eq e = true ∧
      e.diff b = (jl_array_len a : Int) ∧
      (∀ (i : Nat) (hi : i < a.cells.length),
        (b.add i).deref convert_to_cpp a.load = (a.cells.get ⟨i, hi⟩).map convert_to_cpp ∧
        (b.add i).deref_same a.load = a.cells.get ⟨i, hi⟩) ∧
      (b.eq e = true ↔ jl_array_len a = 0) := by
  refine ⟨⟨a.data⟩, ⟨a.data + (a.cells.length : Int)⟩, ?_, ?_, ?_, ?_, ?_, ?_⟩
  · simp [ArrayRef.begin, hr, jlcxx_array_data, jl_array_data]
  · simp [ArrayRef.end_, hr, jlcxx_array_data, jl_array_data, jl_array_len]
  · simp [array_iterator_base.add, array_iterator_base.eq, array_iterator_base.ptr, jl_array_len]
  · simp [array_iterator_base.diff, array_iterator_base.ptr, jl_array_len]
  · intro i hi
    simp only [array_iterator_base.add, array_iterator_base.deref,
      array_iterator_base.deref_same, array_iterator_base.ptr, ValueExtractor,
      ValueExtractor_same, load_data_add a i hi]
    exact ⟨trivial, trivial⟩
  · simp only [array_iterator_base.eq, array_iterator_base.ptr, jl_array_len, beq_iff_eq]
    constructor
    · intro h; omega
    · intro h; omega

/-- Witness for C3: the view over the three-cell array at address `100`, with a
conversion that adds one. -/
theorem ArrayRef_begin_end_exact_witness :
    sampleView.wrapped = some sampleArray ∧
    ∃ b e : array_iterator_base, sampleView.begin = some b ∧ sampleView.end_ = some e ∧
      (b.add (jl_array_len sampleArray)).eq e = true ∧
      e.diff b = (jl_array_len sampleArray : Int) ∧
      (∀ (i : Nat) (hi : i < sampleArray.cells.length),
        (b.add i).deref (fun v : Int => v + 1) sampleArray.load
          = (sampleArray.cells.get ⟨i, hi⟩).map (fun v : Int => v + 1) ∧
        (b.add i).deref_same sampleArray.load = sampleArray.cells.get ⟨i, hi⟩) ∧
      (b.eq e = true ↔ jl_array_len sampleArray = 0) :=
  ⟨rfl, ArrayRef_begin_end_exact (fun v : Int => v + 1) sampleView sampleArray rfl⟩

/-- C8: attaching a view to an existing host array, `ArrayRef(jl_array_t*)`,
fails with the assertion failure if and only if the handle is null; for every
non-null handle `h` the construction succeeds and `wrapped()` returns `h`
unchanged. -/
theorem ArrayRef_attach_fails_iff_null {P : Type} (Dim : Nat) (arr : Option (jl_array_t P)) :
    ((ArrayRef.attach Dim arr = .error .assertion_failed) ↔ arr = none) ∧
    ((∃ e, ArrayRef.attach Dim arr = .error e) ↔ arr = none) ∧
    (∀ h : jl_array_t P, arr = some h →
      ∃ r : ArrayRef P Dim, ArrayRef.attach Dim arr = .ok r ∧ r.wrapped = some h) := by
  cases arr with
  | none =>
    refine ⟨⟨fun _ => rfl, fun _ => rfl⟩, ⟨fun _ => rfl, fun _ => ⟨.assertion_failed, rfl⟩⟩, ?_⟩
    intro h hh
    cases hh
  | some a =>
    refine ⟨⟨fun hh => ?_, fun hh => ?_⟩, ⟨fun hh => ?_, fun hh => ?_⟩, ?_⟩
    · cases hh
    · cases hh
    · obtain ⟨e, he⟩ := hh
      cases he
    · cases hh
    · intro h hh
      cases hh
      exact ⟨⟨some a⟩, rfl, rfl⟩

/-- Witness for C8: the null handle is rejected, the handle of the sample array
is accepted and returned by `wrapped()`. -/
theorem ArrayRef_attach_fails_iff_null_witness :
    (ArrayRef.attach 1 (none : Option (jl_array_t Int)) = .error .assertion_failed) ∧
    (∃ r : ArrayRef Int 1, ArrayRef.attach 1 (some sampleArray) = .ok r ∧
      r.wrapped = some sampleArray) :=
  ⟨((ArrayRef_attach_fails_iff_null 1 (none : Option (jl_array_t Int))).1).2 rfl,
   (ArrayRef_attach_fails_iff_null 1 (some sampleArray)).2.2 sampleArray rfl⟩

/-- Counterexample to C6: the view type has static dimension `1`, the
construction call supplies the two sizes `2` and `3`, and the construction
succeeds with a view over a host array of two dimensions. -/
theorem ArrayRef_of_buffer_accepts_other_dim :
    ∃ (r : ArrayRef Int 1) (a : jl_array_t Int),
      ArrayRef.of_buffer 1 (.named 0) (fun _ => some 0) 4096 [2, 3] = .ok r ∧
      r.wrapped = some a ∧ jl_array_ndims a = 2 ∧ jl_array_len a = 6 ∧
      [2, 3].length ≠ 1 :=
  ⟨_, _, rfl, rfl, rfl, rfl, by decide⟩

/-- C6 as amended: for every static dimension `Dim` and every list of `k`
sizes, both native-buffer constructors succeed without comparing `k` with `Dim`;
the view they return wraps a host array of element type `packed` with `k`
dimensions, placed on the buffer, of length the product of the sizes, with the
requested ownership.  `make_julia_array` returns a view whose static dimension
is `k`. -/
theorem ArrayRef_of_buffer_no_dim_check {S : Type} (Dim : Nat) (packed : jl_datatype_t)
    (mem : Int → Option S) (julia_owned : Bool) (c_ptr : Int) (sizes : List Nat) :
    (∃ (r : ArrayRef S Dim) (a : jl_array_t S),
      ArrayRef.of_buffer_owned Dim packed mem julia_owned c_ptr sizes = .ok r ∧
      r.wrapped = some a ∧ jl_array_ndims a = sizes.length ∧
      a.atype = apply_array_type packed sizes.length ∧
      jlcxx_array_data a = c_ptr ∧ jl_array_len a = sizes.prod ∧
      a.julia_owned = julia_owned) ∧
    (∃ (r : ArrayRef S Dim) (a : jl_array_t S),
      ArrayRef.of_buffer Dim packed mem c_ptr sizes = .ok r ∧
      r.wrapped = some a ∧ jl_array_ndims a = sizes.length ∧
      a.atype = apply_array_type packed sizes.length ∧
      jlcxx_array_data a = c_ptr ∧ jl_array_len a = sizes.prod ∧
      a.julia_owned = false) ∧
    (∃ (r : ArrayRef S sizes.length) (a : jl_array_t S),
      make_julia_array packed mem c_ptr sizes = .ok r ∧
      r.wrapped = some a ∧ jl_array_ndims a = sizes.length) := by
  have hlen : ∀ o : Bool, jl_array_len (wrap_array packed mem o c_ptr sizes) = sizes.prod := by
    intro o
    show ((List.range sizes.prod).map (fun (i : Nat) => mem (c_ptr + (i : Int)))).length
      = sizes.prod
    rw [List.length_map, List.length_range]
  exact ⟨⟨_, _, rfl, rfl, rfl, rfl, rfl, hlen julia_owned, rfl⟩,
    ⟨_, _, rfl, rfl, rfl, rfl, rfl, hlen false, rfl⟩, ⟨_, _, rfl, rfl, rfl⟩⟩

/-! ## Theorems: `push_back` -/

theorem grow_cells {V J : Type} (h : Host) (s : Exec V J) :
    (s.grow h).self.m_array.cells = s.self.m_array.cells ++ [none] := rfl

theorem grow_box_calls {V J : Type} (h : Host) (s : Exec V J) :
    (s.grow h).box_calls = s.box_calls := rfl

theorem write_raw_after_grow {V J : Type} (h : Host) (val : V) (s : Exec V J) :
    ((s.grow h).write_raw (jl_array_len s.self.m_array) val).self.m_array.cells
      = s.self.m_array.cells ++ [some (.raw val)] := by
  have hlt : s.self.m_array.cells.length < (s.grow h).self.m_array.cells.length := by
    simp [grow_cells]
  simp only [Exec.write_raw, Array.wrapped, jlcxx_array_data, jl_array_data, jl_array_len]
  rw [store_data_add _ _ _ hlt]
  simp only [grow_cells]
  exact set_append_unset _ _

theorem ptr_set_after_grow {V J : Type} (h : Host) (E : ElemTraits V J) (val : V)
    (s : Exec V J) :
    (((s.grow h).call_box E val).2.ptr_set (jl_array_len s.self.m_array)
        ((s.grow h).call_box E val).1).self.m_array.cells
      = s.self.m_array.cells ++ [some (.ref (E.box val))] := by
  simp only [Exec.ptr_set, Exec.call_box, jl_array_ptr_set, jl_array_len, grow_cells]
  exact set_append_unset _ _

theorem push_back_cells {V J : Type} (h : Host) (E : ElemTraits V J) (val : V)
    (s : Exec V J) :
    (Array.push_back h E val s).self.m_array.cells
      = s.self.m_array.cells ++ [some (E.stored val)] := by
  unfold Array.push_back ElemTraits.stored
  by_cases hc : (E.IsMirroredType && !E.is_pointer) = true
  · simp only [hc, if_true]
    exact write_raw_after_grow h val s
  · simp only [hc, if_false]
    exact ptr_set_after_grow h E val s

theorem push_back_box_calls {V J : Type} (h : Host) (E : ElemTraits V J) (val : V)
    (s : Exec V J) :
    (Array.push_back h E val s).box_calls
      = s.box_calls ++ (if (E.IsMirroredType && !E.is_pointer) = true then [] else [val]) := by
  unfold Array.push_back
  by_cases hc : (E.IsMirroredType && !E.is_pointer) = true
  · simp only [hc, if_true, List.append_nil]
    simp only [Exec.write_raw]
    rfl
  · simp only [hc, if_false]
    rfl

theorem push_all_cells {V J : Type} (h : Host) (E : ElemTraits V J) (vs : List V)
    (s : Exec V J) :
    (Array.push_all h E vs s).self.m_array.cells
      = s.self.m_array.cells ++ vs.map (fun v => some (E.stored v)) := by
  induction vs generalizing s with
  | nil => simp [Array.push_all]
  | cons v vs ih =>
    have hstep : Array.push_all h E (v :: vs) s
        = Array.push_all h E vs (Array.push_back h E v s) := rfl
    rw [hstep, ih, push_back_cells]
    simp

/-- C1: for every `n` and every sequence `v_0, ..., v_{n-1}`, starting from an
`Array` constructed with length `0` and calling `push_back(v_0)`, ...,
`push_back(v_{n-1})` in order yields an array of length `n` whose cell at each
position `i < n` holds `v_i`: in place on the mirrored path, as a reference to
`box(v_i)` otherwise, so that reading the cell back (through any `unbox` that
inverts `box`) gives `v_i`; and each `push_back` leaves the cells at all
previously existing positions unchanged. -/
theorem Array_push_back_sequence {V J : Type} (h : Host) (E : ElemTraits V J)
    (vs : List V) :
    jl_array_len (Array.push_all h E vs (Exec.start h E 0)).self.wrapped = vs.length ∧
    (∀ (i : Nat) (hi : i < vs.length),
      (Array.push_all h E vs (Exec.start h E 0)).self.wrapped.cells[i]?
        = some (some (E.stored (vs.get ⟨i, hi⟩)))) ∧
    ((E.IsMirroredType && !E.is_pointer) = true → ∀ (i : Nat) (hi : i < vs.length),
      (Array.push_all h E vs (Exec.start h E 0)).self.wrapped.cells[i]?
        = some (some (.raw (vs.get ⟨i, hi⟩)))) ∧
    (∀ unbox : J → V, (∀ v, unbox (E.box v) = v) → ∀ (i : Nat) (hi : i < vs.length),
      ((Array.push_all h E vs (Exec.start h E 0)).self.wrapped.cells[i]?).join.map
        (Stored.value unbox) = some (vs.get ⟨i, hi⟩)) ∧
    (∀ (s : Exec V J) (v : V) (i : Nat), i < jl_array_len s.self.wrapped →
      (Array.push_back h E v s).self.wrapped.cells[i]? = s.self.wrapped.cells[i]?) := by
  have hcells : (Array.push_all h E vs (Exec.start h E 0)).self.wrapped.cells
      = vs.map (fun v => some (E.stored v)) := by
    have := push_all_cells h E vs (Exec.start h E 0)
    simpa [Array.wrapped, Exec.start, Array.ctor, jl_alloc_array_1d] using this
  have hget : ∀ (i : Nat) (hi : i < vs.length),
      (Array.push_all h E vs (Exec.start h E 0)).self.wrapped.cells[i]?
        = some (some (E.stored (vs.get ⟨i, hi⟩))) := by
    intro i hi
    rw [hcells]
    simp [List.getElem?_map, List.getElem?_eq_getElem hi]
  refine ⟨?_, hget, ?_, ?_, ?_⟩
  · simp [jl_array_len, hcells]
  · intro hc i hi
    rw [hget i hi]
    simp [ElemTraits.stored, hc]
  · intro unbox hinv i hi
    rw [hget i hi]
    by_cases hc : (E.IsMirroredType && !E.is_pointer) = true
    · simp [ElemTraits.stored, hc, Stored.value]
    · simp [ElemTraits.stored, hc, Stored.value, hinv]
  · intro s v i hi
    simp only [Array.wrapped, push_back_cells]
    exact List.getElem?_append_left hi

/-- Witness for C1: pushing `3, 1, 4` on the mirrored path and on the boxed
path (where `box` adds one hundred). -/
theorem Array_push_back_sequence_witness :
    jl_array_len (Array.push_all sampleHost mirroredInt [3, 1, 4]
      (Exec.start sampleHost mirroredInt 0)).self.wrapped = 3 ∧
    (Array.push_all sampleHost mirroredInt [3, 1, 4]
      (Exec.start sampleHost mirroredInt 0)).self.wrapped.cells[1]? = some (some (.raw 1)) ∧
    (Array.push_all sampleHost boxedInt [3, 1, 4]
      (Exec.start sampleHost boxedInt 0)).self.wrapped.cells[2]? = some (some (.ref 104)) ∧
    ((Array.push_all sampleHost boxedInt [3, 1, 4]
      (Exec.start sampleHost boxedInt 0)).self.wrapped.cells[2]?).join.map
        (Stored.value (fun j : Int => j - 100)) = some 4 :=
  ⟨(Array_push_back_sequence sampleHost mirroredInt [3, 1, 4]).1,
   (Array_push_back_sequence sampleHost mirroredInt [3, 1, 4]).2.2.1 rfl 1 (by decide),
   (Array_push_back_sequence sampleHost boxedInt [3, 1, 4]).2.1 2 (by decide),
   (Array_push_back_sequence sampleHost boxedInt [3, 1, 4]).2.2.2.1 (fun j : Int => j - 100)
     (fun v => by show v + 100 - 100 = v; omega) 2 (by decide)⟩

/-- C9: for every value `v` pushed with `Array<ValueT>::push_back`: if `ValueT`
is a mirrored type and not a pointer type, `v` is written directly into the
newly grown raw cell, `box` is not called in any state of the call, and
afterwards the last element of the array is `v`; otherwise `box` is called
exactly once, on `v`, and a reference to the boxed host value is stored in the
new cell. -/
theorem Array_push_back_fast_and_boxed_path {V J : Type} (h : Host) (E : ElemTraits V J)
    (v : V) (s : Exec V J) :
    ((E.IsMirroredType && !E.is_pointer) = true →
      (Array.push_back h E v s).self.wrapped.cells
        = s.self.wrapped.cells ++ [some (.raw v)] ∧
      (Array.push_back h E v s).self.wrapped.cells.getLast? = some (some (.raw v)) ∧
      (Array.push_back h E v s).box_calls = s.box_calls ∧
      (∀ st ∈ Array.push_back_trace h E v s, st.box_calls = s.box_calls)) ∧
    ((E.IsMirroredType && !E.is_pointer) = false →
      (Array.push_back h E v s).box_calls = s.box_calls ++ [v] ∧
      (Array.push_back h E v s).self.wrapped.cells
        = s.self.wrapped.cells ++ [some (.ref (E.box v))] ∧
      (Array.push_back h E v s).self.wrapped.cells.getLast? = some (some (.ref (E.box v)))) := by
  constructor
  · intro hc
    have h1 := push_back_cells h E v s
    have h2 := push_back_box_calls h E v s
    simp only [ElemTraits.stored, hc, if_true, List.append_nil] at h1 h2
    refine ⟨h1, ?_, h2, ?_⟩
    · simp [Array.wrapped, h1]
    · intro st hst
      simp only [Array.push_back_trace, hc, if_true, List.mem_cons, List.mem_singleton,
        List.not_mem_nil, or_false] at hst
      rcases hst with rfl | rfl | rfl
      · rfl
      · rfl
      · rfl
  · intro hc
    have h1 := push_back_cells h E v s
    have h2 := push_back_box_calls h E v s
    simp only [ElemTraits.stored, hc, Bool.false_eq_true, if_false] at h1 h2
    refine ⟨h2, h1, ?_⟩
    simp [Array.wrapped, h1]

/-- Witness for C9: pushing `7` after `5` on the mirrored path calls `box` zero
times; on the boxed path it calls `box` once, on `7`. -/
theorem Array_push_back_fast_and_boxed_path_witness :
    ((Array.push_back sampleHost mirroredInt 7
        (Array.push_back sampleHost mirroredInt 5 (Exec.start sampleHost mirroredInt 0))
      ).self.wrapped.cells.getLast? = some (some (.raw 7)) ∧
     (Array.push_back sampleHost mirroredInt 7
        (Array.push_back sampleHost mirroredInt 5 (Exec.start sampleHost mirroredInt 0))
      ).box_calls = []) ∧
    ((Array.push_back sampleHost boxedInt 7 (Exec.start sampleHost boxedInt 0)).box_calls = [7] ∧
     (Array.push_back sampleHost boxedInt 7
        (Exec.start sampleHost boxedInt 0)).self.wrapped.cells.getLast?
        = some (some (.ref 107))) :=
  ⟨⟨((Array_push_back_fast_and_boxed_path sampleHost mirroredInt 7
        (Array.push_back sampleHost mirroredInt 5
          (Exec.start sampleHost mirroredInt 0))).1 rfl).2.1,
    ((Array_push_back_fast_and_boxed_path sampleHost mirroredInt 7
        (Array.push_back sampleHost mirroredInt 5
          (Exec.start sampleHost mirroredInt 0))).1 rfl).2.2.1⟩,
   ⟨((Array_push_back_fast_and_boxed_path sampleHost boxedInt 7
        (Exec.start sampleHost boxedInt 0)).2 rfl).1,
    ((Array_push_back_fast_and_boxed_path sampleHost boxedInt 7
        (Exec.start sampleHost boxedInt 0)).2 rfl).2.2⟩⟩

/-- Counterexample to C4: in the call `push_back(7)` on an empty `Array`, on
either path, and in `ArrayRef::push_back(7)` on the three-cell sample view,
the state right after the grow already has length `old_length + 1` while the
cell at index `old_length` is still unwritten. -/
theorem push_back_length_grows_before_write :
    (jl_array_len (Exec.start sampleHost mirroredInt 0).self.wrapped = 0 ∧
      ∃ st ∈ Array.push_back_trace sampleHost mirroredInt 7 (Exec.start sampleHost mirroredInt 0),
        jl_array_len st.self.wrapped = 0 + 1 ∧ st.self.wrapped.cells[0]? = some none) ∧
    (jl_array_len (Exec.start sampleHost boxedInt 0).self.wrapped = 0 ∧
      ∃ st ∈ Array.push_back_trace sampleHost boxedInt 7 (Exec.start sampleHost boxedInt 0),
        jl_array_len st.self.wrapped = 0 + 1 ∧ st.self.wrapped.cells[0]? = some none) ∧
    (sampleView.size = some 3 ∧
      ∃ a ∈ ArrayRef.push_back_trace sampleHost 7 sampleView,
        jl_array_len a = 3 + 1 ∧ a.cells[3]? = some none) :=
  ⟨⟨rfl, (Exec.start sampleHost mirroredInt 0).grow sampleHost,
      List.mem_cons_of_mem _ (List.mem_cons_self _ _), rfl, rfl⟩,
   ⟨rfl, (Exec.start sampleHost boxedInt 0).grow sampleHost,
      List.mem_cons_of_mem _ (List.mem_cons_self _ _), rfl, rfl⟩,
   ⟨rfl, jl_array_grow_end sampleHost sampleArray 1,
      List.mem_cons_of_mem _ (List.mem_cons_self _ _), rfl, rfl⟩⟩

/-- C4 as amended: `Array::push_back` and `ArrayRef::push_back` grow the array
first and write the new cell afterwards.  The call starts in the state it was
given; its second state, right after `jl_array_grow_end`, has length
`old_length + 1` and an unwritten cell at index `old_length`; its last state,
the one the call returns, has length `old_length + 1` and holds the pushed value
(in place, or as a reference to its boxed value) at index `old_length`. -/
theorem push_back_grows_then_writes {V J : Type} (h : Host) (E : ElemTraits V J) (v : V)
    (s : Exec V J) (r : ArrayRef V 1) :
    ((Array.push_back_trace h E v s).head? = some s ∧
      (Array.push_back_trace h E v s)[1]? = some (s.grow h) ∧
      (Array.push_back_trace h E v s).getLast? = some (Array.push_back h E v s) ∧
      jl_array_len (s.grow h).self.wrapped = jl_array_len s.self.wrapped + 1 ∧
      (s.grow h).self.wrapped.cells[jl_array_len s.self.wrapped]? = some none ∧
      jl_array_len (Array.push_back h E v s).self.wrapped = jl_array_len s.self.wrapped + 1 ∧
      (Array.push_back h E v s).self.wrapped.cells[jl_array_len s.self.wrapped]?
        = some (some (E.stored v))) ∧
    (∀ a : jl_array_t V, r.wrapped = some a →
      ∃ a1 a2 : jl_array_t V,
        ArrayRef.push_back_trace h v r = [a, a1, a2] ∧
        ArrayRef.push_back h v r = some ⟨some a2⟩ ∧
        jl_array_len a1 = jl_array_len a + 1 ∧
        a1.cells[jl_array_len a]? = some none ∧
        jl_array_len a2 = jl_array_len a + 1 ∧
        a2.cells[jl_array_len a]? = some (some v)) := by
  constructor
  · have hcells := push_back_cells h E v s
    refine ⟨?_, ?_, ?_, ?_, ?_, ?_, ?_⟩
    · unfold Array.push_back_trace
      split <;> rfl
    · unfold Array.push_back_trace
      split <;> rfl
    · unfold Array.push_back_trace Array.push_back
      split <;> rfl
    · simp [jl_array_len, Array.wrapped, grow_cells]
    · simp [jl_array_len, Array.wrapped, grow_cells]
    · simp [jl_array_len, Array.wrapped, hcells]
    · simp [jl_array_len, Array.wrapped, hcells]
  · intro a ha
    have hlt : a.cells.length < (jl_array_grow_end h a 1).cells.length := by
      simp [jl_array_grow_end]
    have hstore : (jl_array_grow_end h a 1).store
        (jlcxx_array_data (jl_array_grow_end h a 1) + (jl_array_len a : Int)) v
        = { jl_array_grow_end h a 1 with cells := a.cells ++ [some v] } := by
      simp only [jlcxx_array_data, jl_array_data, jl_array_len]
      rw [store_data_add _ _ _ hlt]
      have hset : (jl_array_grow_end h a 1).cells.set a.cells.length (some v)
          = a.cells ++ [some v] := set_append_unset a.cells v
      rw [hset]
    refine ⟨jl_array_grow_end h a 1,
      (jl_array_grow_end h a 1).store
        (jlcxx_array_data (jl_array_grow_end h a 1) + (jl_array_len a : Int)) v,
      ?_, ?_, ?_, ?_, ?_, ?_⟩
    · simp only [ArrayRef.push_back_trace, ha]
    · simp only [ArrayRef.push_back, ha]
    · simp [jl_array_len, jl_array_grow_end]
    · simp [jl_array_len, jl_array_grow_end]
    · rw [hstore]; simp [jl_array_len]
    · rw [hstore]; simp [jl_array_len]

/-- Witness for C4 as amended: the call `push_back(7)` on the three-cell sample
view passes through a state of length four whose cell `3` is unwritten and ends
with `7` in cell `3`. -/
theorem push_back_grows_then_writes_witness :
    ∃ a1 a2 : jl_array_t Int,
      ArrayRef.push_back_trace sampleHost 7 sampleView = [sampleArray, a1, a2] ∧
      ArrayRef.push_back sampleHost 7 sampleView = some ⟨some a2⟩ ∧
      jl_array_len a1 = jl_array_len sampleArray + 1 ∧
      a1.cells[jl_array_len sampleArray]? = some none ∧
      jl_array_len a2 = jl_array_len sampleArray + 1 ∧
      a2.cells[jl_array_len sampleArray]? = some (some 7) :=
  (push_back_grows_then_writes sampleHost mirroredInt 7 (Exec.start sampleHost mirroredInt 0)
    sampleView).2 sampleArray rfl

/-! ## Theorems: tuples -/

theorem box_tuple_eq_new_jl_tuple {T L H : Type} (B : Boxing T L H) (tp : List (CppVal T L)) :
    box B (.tuple tp) = new_jl_tuple B tp := rfl

theorem unbox_tuple_eq_ConvertToCpp {T L H : Type} (B : Boxing T L H) (O : EvalOrder T)
    (ts : List (CppType T)) (j : jl_value_t H) :
    unbox B O (.tuple ts) j = (ConvertToCpp B O ts j).map CppVal.tuple := rfl

theorem unpack_args_cons {T L H : Type} (B : Boxing T L H) (O : EvalOrder T)
    (t : CppType T) (ts : List (CppType T)) (i : Nat) (j : jl_value_t H) :
    unpack_args B O (t :: ts) i j = unpack_arg B O t i j :: unpack_args B O ts (i + 1) j := by
  rw [unpack_args]
  rfl

theorem AppendTupleValues_eq_map {T L H : Type} (B : Boxing T L H) (tp : List (CppVal T L)) :
    AppendTupleValues B tp = tp.map (box B) := by
  induction tp with
  | nil => rfl
  | cons v vs ih => simp [AppendTupleValues, ih]

theorem typesOf_eq_map {T L : Type} (tp : List (CppVal T L)) :
    CppVal.typesOf tp = tp.map CppVal.typeOf := by
  induction tp with
  | nil => rfl
  | cons v vs ih => simp [CppVal.typesOf, ih]

theorem get_field_append {H : Type} (ty : jl_datatype_t) (pre : List (jl_value_t H))
    (x : jl_value_t H) (rest : List (jl_value_t H)) :
    jl_get_nth_field_checked (.struct ty (pre ++ x :: rest)) pre.length = .ok x := by
  have hx : (pre ++ x :: rest)[pre.length]? = some x := by
    rw [List.getElem?_append_right (le_refl _)]
    simp
  simp only [jl_get_nth_field_checked, jl_fields, hx]

theorem first_thrown_of_no_error {E α : Type} (args : List (Except E α)) :
    ∀ order : List Nat, (∀ k ∈ order, ∀ e, args[k]? ≠ some (.error e)) →
      first_thrown order args = none := by
  intro order
  induction order with
  | nil => intro _; rfl
  | cons i rest ih =>
    intro h
    have hrest := ih (fun k hk => h k (List.mem_cons_of_mem _ hk))
    have hi := h i (List.mem_cons_self _ _)
    rw [first_thrown]
    split
    · next e he => exact absurd he (hi e)
    · exact hrest

theorem first_thrown_some_elim {E α : Type} (args : List (Except E α)) (e : E) :
    ∀ order : List Nat, first_thrown order args = some e →
      ∃ k ∈ order, args[k]? = some (.error e) := by
  intro order
  induction order with
  | nil => intro h; cases h
  | cons i rest ih =>
    intro h
    rw [first_thrown] at h
    split at h
    · next e1 he =>
      cases h
      exact ⟨i, List.mem_cons_self _ _, he⟩
    · obtain ⟨k, hk, hke⟩ := ih h
      exact ⟨k, List.mem_cons_of_mem _ hk, hke⟩

theorem first_thrown_of_mem {E α : Type} (args : List (Except E α)) (k : Nat) (e0 : E)
    (hk : args[k]? = some (.error e0)) :
    ∀ order : List Nat, k ∈ order → ∃ e, first_thrown order args = some e := by
  intro order
  induction order with
  | nil => intro h; cases h
  | cons i rest ih =>
    intro h
    rw [first_thrown]
    split
    · next e1 _ => exact ⟨e1, rfl⟩
    · next hne =>
      rcases List.mem_cons.1 h with rfl | hmem
      · exact absurd hk (hne e0)
      · exact ih hmem

theorem first_thrown_head {E α : Type} (args : List (Except E α)) (i : Nat) (e : E)
    (rest : List Nat) (hi : args[i]? = some (.error e)) :
    first_thrown (i :: rest) args = some e := by
  rw [first_thrown]
  simp only [hi]

theorem first_thrown_append {E α : Type} (args : List (Except E α)) (l2 : List Nat) :
    ∀ l1 : List Nat, (∀ k ∈ l1, ∀ e, args[k]? ≠ some (.error e)) →
      first_thrown (l1 ++ l2) args = first_thrown l2 args := by
  intro l1
  induction l1 with
  | nil => intro _; rfl
  | cons i rest ih =>
    intro h
    have hrest := ih (fun k hk => h k (List.mem_cons_of_mem _ hk))
    have hi := h i (List.mem_cons_self _ _)
    rw [List.cons_append, first_thrown]
    split
    · next e he => exact absurd he (hi e)
    · exact hrest

theorem all_values_map_ok {E α : Type} (xs : List α) :
    all_values (xs.map (fun x => (Except.ok x : Except E α))) = .ok xs := by
  induction xs with
  | nil => rfl
  | cons x xs ih => simp only [List.map_cons, all_values, ih]

theorem make_tuple_map_ok {E α : Type} (order : List Nat) (xs : List α) :
    make_tuple order (xs.map (fun x => (Except.ok x : Except E α))) = .ok xs := by
  have hnone : first_thrown order (xs.map (fun x => (Except.ok x : Except E α))) = none := by
    apply first_thrown_of_no_error
    intro k _ e hke
    rw [List.getElem?_map] at hke
    cases hx : xs[k]? with
    | none => simp [hx] at hke
    | some x => simp [hx] at hke
  simp only [make_tuple, hnone, all_values_map_ok]

mutual
theorem unbox_box_of_roundTrips {T L H : Type} (B : Boxing T L H) (O : EvalOrder T) :
    ∀ v : CppVal T L, (∀ t ∈ v.leafTypes, B.RoundTrips t) →
      unbox B O v.typeOf (box B v) = .ok v
  | .leaf t x => by
    intro h
    have ht : B.RoundTrips t := h t (by simp [CppVal.leafTypes])
    simp only [CppVal.typeOf, box, unbox, ht x]
    rfl
  | .tuple vs => by
    intro h
    have hrec := unpack_args_boxed_of_roundTrips B O vs (by simpa [CppVal.leafTypes] using h) []
      (jl_apply_tuple_type_v ((AppendTupleValues B vs).map jl_typeof))
    simp only [List.length_nil, List.nil_append] at hrec
    simp only [CppVal.typeOf, box, unbox, jl_new_structv, hrec, make_tuple_map_ok]
    rfl
theorem unpack_args_boxed_of_roundTrips {T L H : Type} (B : Boxing T L H) (O : EvalOrder T) :
    ∀ vs : List (CppVal T L), (∀ t ∈ CppVal.leafTypesAll vs, B.RoundTrips t) →
      ∀ (pre : List (jl_value_t H)) (ty : jl_datatype_t),
        unpack_args B O (CppVal.typesOf vs) pre.length
          (.struct ty (pre ++ AppendTupleValues B vs))
          = vs.map (fun x => (Except.ok x : Except ConvError (CppVal T L)))
  | [] => by
    intro _ pre ty
    simp [CppVal.typesOf, unpack_args]
  | v :: vs => by
    intro h pre ty
    have hv := unbox_box_of_roundTrips B O v
      (fun t ht => h t (by simp [CppVal.leafTypesAll, ht]))
    have hvs := unpack_args_boxed_of_roundTrips B O vs
      (fun t ht => h t (by simp [CppVal.leafTypesAll, ht])) (pre ++ [box B v]) ty
    simp only [List.length_append, List.length_singleton, List.append_assoc,
      List.singleton_append] at hvs
    simp only [CppVal.typesOf, AppendTupleValues, unpack_args, get_field_append, hv, hvs,
      List.map_cons]
end

/-- C2: for every native record `r` whose leaf types all satisfy
`unbox(box(v)) = v` (its elements being leaves or nested tuples of such),
converting `r` to a host tuple with `ConvertToJulia` and converting the result
back with `ConvertToCpp` at the static type of `r` returns a record equal to
`r`, field by field and in the same order, whatever the order in which the
arguments of `std::make_tuple` are evaluated. -/
theorem tuple_round_trip {T L H : Type} (B : Boxing T L H) (O : EvalOrder T)
    (r : List (CppVal T L))
    (hleaf : ∀ t ∈ CppVal.leafTypesAll r, B.RoundTrips t) :
    ConvertToCpp B O (CppVal.typesOf r) (ConvertToJulia B r) = .ok r := by
  have hrec := unpack_args_boxed_of_roundTrips B O r hleaf []
    (jl_apply_tuple_type_v ((AppendTupleValues B r).map jl_typeof))
  simp only [List.length_nil, List.nil_append] at hrec
  simp only [ConvertToCpp, unpack_tuple, ConvertToJulia, new_jl_tuple, jl_new_structv, hrec,
    make_tuple_map_ok]

/-- Witness for C2: the record `(5, (6, 7), 8)` with a nested tuple, converted
back with the arguments evaluated from the last to the first. -/
theorem tuple_round_trip_witness :
    (∀ t ∈ CppVal.leafTypesAll
        ([.leaf 0 5, .tuple [.leaf 1 6, .leaf 0 7], .leaf 2 8] : List (CppVal Nat Int)),
      sampleBoxing.RoundTrips t) ∧
    ConvertToCpp sampleBoxing EvalOrder.right_to_left
        (CppVal.typesOf ([.leaf 0 5, .tuple [.leaf 1 6, .leaf 0 7], .leaf 2 8] :
          List (CppVal Nat Int)))
        (ConvertToJulia sampleBoxing [.leaf 0 5, .tuple [.leaf 1 6, .leaf 0 7], .leaf 2 8])
      = .ok [.leaf 0 5, .tuple [.leaf 1 6, .leaf 0 7], .leaf 2 8] :=
  ⟨fun _ _ _ => rfl, tuple_round_trip sampleBoxing EvalOrder.right_to_left _ (fun _ _ _ => rfl)⟩

/-- C7: for every native record of arity `K`, the host tuple value produced by
`new_jl_tuple` has exactly `K` fields, field `i` is the boxed value of element
`i`, and the type of the tuple is the tuple type built from the runtime types
(`jl_typeof`) of the `K` boxed values; so wherever the runtime type of a boxed
element differs from the static host type of the element, the field type is the
runtime one and not the static one. -/
theorem new_jl_tuple_concrete_types {T L H : Type} (B : Boxing T L H)
    (tp : List (CppVal T L)) :
    jl_nfields (new_jl_tuple B tp) = tp.length ∧
    (∀ (i : Nat) (hi : i < tp.length),
      jl_get_nth_field_checked (new_jl_tuple B tp) i = .ok (box B (tp.get ⟨i, hi⟩))) ∧
    jl_typeof (new_jl_tuple B tp)
      = jl_apply_tuple_type_v ((jl_fields (new_jl_tuple B tp)).map jl_typeof) ∧
    (jl_tuple_params (jl_typeof (new_jl_tuple B tp))).length = tp.length ∧
    (∀ (i : Nat) (hi : i < tp.length),
      (jl_tuple_params (jl_typeof (new_jl_tuple B tp)))[i]?
        = some (jl_typeof (box B (tp.get ⟨i, hi⟩)))) ∧
    (∀ (i : Nat) (hi : i < tp.length),
      jl_typeof (box B (tp.get ⟨i, hi⟩)) ≠ julia_type B (tp.get ⟨i, hi⟩).typeOf →
      (jl_tuple_params (jl_typeof (new_jl_tuple B tp)))[i]?
        ≠ some (julia_type B (tp.get ⟨i, hi⟩).typeOf)) := by
  have hfields : jl_fields (new_jl_tuple B tp) = tp.map (box B) := by
    simp [new_jl_tuple, jl_new_structv, jl_fields, AppendTupleValues_eq_map]
  have htype : jl_typeof (new_jl_tuple B tp)
      = jl_apply_tuple_type_v ((tp.map (box B)).map jl_typeof) := by
    simp [new_jl_tuple, jl_new_structv, jl_typeof, AppendTupleValues_eq_map]
  have hparam : ∀ (i : Nat) (hi : i < tp.length),
      (jl_tuple_params (jl_typeof (new_jl_tuple B tp)))[i]?
        = some (jl_typeof (box B (tp.get ⟨i, hi⟩))) := by
    intro i hi
    rw [htype]
    simp [jl_apply_tuple_type_v, jl_tuple_params, List.getElem?_map,
      List.getElem?_eq_getElem hi]
  refine ⟨?_, ?_, ?_, ?_, hparam, ?_⟩
  · simp [jl_nfields, hfields]
  · intro i hi
    simp [jl_get_nth_field_checked, hfields, List.getElem?_map, List.getElem?_eq_getElem hi]
  · rw [htype, hfields]
  · rw [htype]
    simp [jl_apply_tuple_type_v, jl_tuple_params]
  · intro i hi hne
    rw [hparam i hi]
    intro heq
    exact hne (Option.some.inj heq)

/-- Witness for C7: in the record `(5, 6)` the second element has static host
type `named 1` and boxes to a value of runtime type `named 11`; the tuple type
is built from `named 0` and `named 11`, while the static tuple type is built
from `named 0` and `named 1`. -/
theorem new_jl_tuple_concrete_types_witness :
    jl_typeof (box sampleBoxing (CppVal.leaf 1 6))
      ≠ julia_type sampleBoxing (CppVal.leaf 1 (6 : Int)).typeOf ∧
    (jl_tuple_params (jl_typeof (new_jl_tuple sampleBoxing [.leaf 0 5, .leaf 1 6])))[1]?
      ≠ some (julia_type sampleBoxing (CppVal.leaf 1 (6 : Int)).typeOf) ∧
    (jl_tuple_params (jl_typeof (new_jl_tuple sampleBoxing [.leaf 0 5, .leaf 1 6])))[1]?
      = some (.named 11) ∧
    jl_typeof (new_jl_tuple sampleBoxing [.leaf 0 5, .leaf 1 6])
      = .tuple [.named 0, .named 11] ∧
    julia_type sampleBoxing (CppVal.tuple [.leaf 0 5, .leaf 1 (6 : Int)]).typeOf
      = .tuple [.named 0, .named 1] :=
  by
  have hne : jl_typeof (box sampleBoxing (CppVal.leaf 1 6))
      ≠ julia_type sampleBoxing (CppVal.leaf 1 (6 : Int)).typeOf := by
    show jl_datatype_t.named 11 ≠ jl_datatype_t.named 1
    intro hcontra
    injection hcontra with hcontra
    exact absurd hcontra (by decide)
  exact ⟨hne,
    (new_jl_tuple_concrete_types sampleBoxing [.leaf 0 5, .leaf 1 6]).2.2.2.2.2 1 (by decide) hne,
    (new_jl_tuple_concrete_types sampleBoxing [.leaf 0 5, .leaf 1 6]).2.2.2.2.1 1 (by decide),
    rfl, rfl⟩

theorem get_field_of_lt {H : Type} (j : jl_value_t H) (i : Nat) (hi : i < jl_nfields j) :
    jl_get_nth_field_checked j i = .ok ((jl_fields j).get ⟨i, hi⟩) := by
  have hx : (jl_fields j)[i]? = some ((jl_fields j).get ⟨i, hi⟩) :=
    List.getElem?_eq_getElem hi
  simp only [jl_get_nth_field_checked, hx]

theorem get_field_of_ge {H : Type} (j : jl_value_t H) (i : Nat) (hi : jl_nfields j ≤ i) :
    jl_get_nth_field_checked j i = .error (.field_access i) := by
  have hx : (jl_fields j)[i]? = none := List.getElem?_eq_none hi
  simp only [jl_get_nth_field_checked, hx]

theorem get_field_congr {H : Type} (j k : jl_value_t H) (i : Nat)
    (h : (jl_fields j)[i]? = (jl_fields k)[i]?) :
    jl_get_nth_field_checked j i = jl_get_nth_field_checked k i := by
  simp only [jl_get_nth_field_checked, h]

theorem unpack_arg_of_lt {T L H : Type} (B : Boxing T L H) (O : EvalOrder T) (t : CppType T)
    (j : jl_value_t H) (i : Nat) (hi : i < jl_nfields j) :
    unpack_arg B O t i j = unbox B O t ((jl_fields j).get ⟨i, hi⟩) := by
  simp only [unpack_arg, get_field_of_lt j i hi]

theorem unpack_arg_of_ge {T L H : Type} (B : Boxing T L H) (O : EvalOrder T) (t : CppType T)
    (j : jl_value_t H) (i : Nat) (hi : jl_nfields j ≤ i) :
    unpack_arg B O t i j = (.error (.field_access i) : Except ConvError (CppVal T L)) := by
  simp only [unpack_arg, get_field_of_ge j i hi]

theorem unpack_args_length {T L H : Type} (B : Boxing T L H) (O : EvalOrder T)
    (j : jl_value_t H) :
    ∀ (ts : List (CppType T)) (i : Nat), (unpack_args B O ts i j).length = ts.length := by
  intro ts
  induction ts with
  | nil => intro i; simp [unpack_args]
  | cons t ts ih => intro i; simp [unpack_args_cons, ih]

theorem unpack_args_get {T L H : Type} (B : Boxing T L H) (O : EvalOrder T)
    (j : jl_value_t H) :
    ∀ (ts : List (CppType T)) (i k : Nat) (hk : k < ts.length),
      (unpack_args B O ts i j)[k]? = some (unpack_arg B O (ts.get ⟨k, hk⟩) (i + k) j) := by
  intro ts
  induction ts with
  | nil => intro i k hk; simp at hk
  | cons t ts ih =>
    intro i k hk
    rw [unpack_args_cons]
    cases k with
    | zero => simp
    | succ k =>
      have hk1 : k < ts.length := by simpa using hk
      have hrec := ih (i + 1) k hk1
      have hidx : i + 1 + k = i + (k + 1) := by omega
      rw [hidx] at hrec
      simpa using hrec

theorem unpack_args_eq_zip {T L H : Type} (B : Boxing T L H) (O : EvalOrder T)
    (j : jl_value_t H) :
    ∀ (ts : List (CppType T)) (i : Nat), i + ts.length ≤ jl_nfields j →
      unpack_args B O ts i j
        = (ts.zip ((jl_fields j).drop i)).map (fun p => unbox B O p.1 p.2) := by
  intro ts
  induction ts with
  | nil => intro i _; simp [unpack_args]
  | cons t ts ih =>
    intro i h
    have hi : i < jl_nfields j := by simp at h; omega
    have hdrop : (jl_fields j).drop i
        = (jl_fields j).get ⟨i, hi⟩ :: (jl_fields j).drop (i + 1) :=
      List.drop_eq_getElem_cons hi
    rw [unpack_args_cons, unpack_arg_of_lt B O t j i hi, ih (i + 1) (by simp at h; omega),
      hdrop]
    rfl

theorem unpack_args_congr {T L H : Type} (B : Boxing T L H) (O : EvalOrder T)
    (j k : jl_value_t H) :
    ∀ (ts : List (CppType T)) (i : Nat),
      (∀ n, i ≤ n → n < i + ts.length → (jl_fields j)[n]? = (jl_fields k)[n]?) →
      unpack_args B O ts i j = unpack_args B O ts i k := by
  intro ts
  induction ts with
  | nil => intro i _; simp [unpack_args]
  | cons t ts ih =>
    intro i h
    have hhead := get_field_congr j k i (h i (le_refl _) (by simp))
    have hrest := ih (i + 1) (fun n h1 h2 => h n (by omega) (by simp; omega))
    rw [unpack_args_cons, unpack_args_cons, hrest]
    simp only [unpack_arg, hhead]

theorem unpack_args_missing {T L H : Type} (B : Boxing T L H) (O : EvalOrder T)
    (ts : List (CppType T)) (j : jl_value_t H) (k : Nat) (hk : k < ts.length)
    (hn : jl_nfields j ≤ k) :
    (unpack_args B O ts 0 j)[k]?
      = some (.error (.field_access k) : Except ConvError (CppVal T L)) := by
  rw [unpack_args_get B O j ts 0 k hk, Nat.zero_add, unpack_arg_of_ge B O _ j k hn]

theorem unpack_args_present {T L H : Type} (B : Boxing T L H) (O : EvalOrder T)
    (ts : List (CppType T)) (j : jl_value_t H)
    (hok : ∀ p ∈ ts.zip (jl_fields j), ∃ x : CppVal T L, unbox B O p.1 p.2 = .ok x)
    (k : Nat) (hk : k < ts.length) (hn : k < jl_nfields j) :
    ∀ e, (unpack_args B O ts 0 j)[k]? ≠ some (.error e) := by
  intro e
  have hmem : (ts.get ⟨k, hk⟩, (jl_fields j).get ⟨k, hn⟩) ∈ ts.zip (jl_fields j) := by
    rw [List.mem_iff_getElem]
    have hlen : k < (ts.zip (jl_fields j)).length := by
      simp only [List.length_zip]
      exact Nat.lt_min.2 ⟨hk, hn⟩
    exact ⟨k, hlen, by simp [List.getElem_zip]⟩
  obtain ⟨x, hx⟩ := hok _ hmem
  rw [unpack_args_get B O j ts 0 k hk, Nat.zero_add, unpack_arg_of_lt B O _ j k hn]
  simp only at hx
  rw [hx]
  intro hcontra
  cases hcontra

theorem ConvertToCpp_fails_of_short {T L H : Type} (B : Boxing T L H) (O : EvalOrder T)
    (ts : List (CppType T)) (j : jl_value_t H) (hlt : jl_nfields j < ts.length) :
    ∃ e, first_thrown (O.order ts) (unpack_args B O ts 0 j) = some e ∧
      ConvertToCpp B O ts j = (.error e : Except ConvError (List (CppVal T L))) := by
  have hmem : jl_nfields j ∈ O.order ts := (O.valid ts).mem_iff.2 (List.mem_range.2 hlt)
  obtain ⟨e, he⟩ := first_thrown_of_mem (unpack_args B O ts 0 j) (jl_nfields j) _
    (unpack_args_missing B O ts j (jl_nfields j) hlt (le_refl _)) (O.order ts) hmem
  exact ⟨e, he, by simp only [ConvertToCpp, unpack_tuple, make_tuple, he]⟩

/-- Counterexample to C5: the target record type has arity `1`, the host tuple
has two fields, and the conversion returns the record made of the first field
instead of failing, in either evaluation order. -/
theorem ConvertToCpp_accepts_longer_tuple :
    jl_nfields (jl_new_structv (.tuple [.named 0, .named 0])
        [jl_value_t.leaf (.named 0) (5 : Int), .leaf (.named 0) 6]) = 2 ∧
    ([CppType.leaf 0] : List (CppType Nat)).length = 1 ∧
    ConvertToCpp sampleBoxing EvalOrder.left_to_right [.leaf 0]
        (jl_new_structv (.tuple [.named 0, .named 0]) [.leaf (.named 0) 5, .leaf (.named 0) 6])
      = .ok [.leaf 0 5] ∧
    ConvertToCpp sampleBoxing EvalOrder.right_to_left [.leaf 0]
        (jl_new_structv (.tuple [.named 0, .named 0]) [.leaf (.named 0) 5, .leaf (.named 0) 6])
      = .ok [.leaf 0 5] :=
  ⟨rfl, rfl, rfl, rfl⟩

/-- C5 as amended: for every target record type of arity `K`, every host value
with `n` fields and every order in which the arguments of `std::make_tuple` are
evaluated.  If `n < K` the conversion returns no record: it fails, and when the
`n` fields that are present unbox without error the failure is a field-access
error at an index between `n` and `K - 1`; that index is `K - 1` when the
arguments are evaluated from the last to the first (whatever the fields hold)
and `n` when they are evaluated from the first to the last.  If `n ≥ K` the
number of fields raises no error: whenever the first `K` fields unbox to
`x_0, ..., x_{K-1}` the conversion returns the record of these values, and in
every case the result is the result for the host tuple made of the first `K`
fields only, the fields beyond `K` being ignored. -/
theorem ConvertToCpp_arity {T L H : Type} (B : Boxing T L H) (O : EvalOrder T)
    (ts : List (CppType T)) (julia_val : jl_value_t H) :
    (jl_nfields julia_val < ts.length →
      ∃ e, ConvertToCpp B O ts julia_val
        = (.error e : Except ConvError (List (CppVal T L)))) ∧
    (jl_nfields julia_val < ts.length →
      (∀ p ∈ ts.zip (jl_fields julia_val), ∃ x : CppVal T L, unbox B O p.1 p.2 = .ok x) →
      ∃ m, jl_nfields julia_val ≤ m ∧ m < ts.length ∧
        ConvertToCpp B O ts julia_val
          = (.error (.field_access m) : Except ConvError (List (CppVal T L)))) ∧
    (jl_nfields julia_val < ts.length →
      ConvertToCpp B EvalOrder.right_to_left ts julia_val
        = (.error (.field_access (ts.length - 1)) : Except ConvError (List (CppVal T L)))) ∧
    (jl_nfields julia_val < ts.length →
      (∀ p ∈ ts.zip (jl_fields julia_val),
        ∃ x : CppVal T L, unbox B EvalOrder.left_to_right p.1 p.2 = .ok x) →
      ConvertToCpp B EvalOrder.left_to_right ts julia_val
        = (.error (.field_access (jl_nfields julia_val)) :
            Except ConvError (List (CppVal T L)))) ∧
    (ts.length ≤ jl_nfields julia_val → ∀ xs : List (CppVal T L),
      (ts.zip (jl_fields julia_val)).map (fun p => unbox B O p.1 p.2)
        = xs.map (fun x => (Except.ok x : Except ConvError (CppVal T L))) →
      ConvertToCpp B O ts julia_val = .ok xs) ∧
    (ts.length ≤ jl_nfields julia_val → ∀ dt : jl_datatype_t,
      (ConvertToCpp B O ts julia_val : Except ConvError (List (CppVal T L)))
        = ConvertToCpp B O ts (jl_new_structv dt ((jl_fields julia_val).take ts.length))) := by
  refine ⟨?_, ?_, ?_, ?_, ?_, ?_⟩
  · intro hlt
    obtain ⟨e, _, he⟩ := ConvertToCpp_fails_of_short B O ts julia_val hlt
    exact ⟨e, he⟩
  · intro hlt hok
    obtain ⟨e, hfirst, he⟩ := ConvertToCpp_fails_of_short B O ts julia_val hlt
    obtain ⟨k, hkmem, hk⟩ := first_thrown_some_elim _ e _ hfirst
    have hkK : k < ts.length := List.mem_range.1 ((O.valid ts).mem_iff.1 hkmem)
    by_cases hkn : k < jl_nfields julia_val
    · exact absurd hk (unpack_args_present B O ts julia_val hok k hkK hkn e)
    · have hmiss := unpack_args_missing B O ts julia_val k hkK (by omega)
      rw [hmiss] at hk
      have hek : e = ConvError.field_access k := by
        injection hk with hk
        injection hk with hk
        exact hk.symm
      exact ⟨k, by omega, hkK, by rw [he, hek]⟩
  · intro hlt
    obtain ⟨K1, hK1⟩ : ∃ K1, ts.length = K1 + 1 := ⟨ts.length - 1, by omega⟩
    have horder : (EvalOrder.right_to_left : EvalOrder T).order ts
        = K1 :: (List.range K1).reverse := by
      show (List.range ts.length).reverse = _
      rw [hK1, List.range_succ, List.reverse_append]
      rfl
    have hmiss := unpack_args_missing B EvalOrder.right_to_left ts julia_val K1
      (by omega) (by omega)
    have hfirst := first_thrown_head _ K1 _ (List.range K1).reverse hmiss
    have hK1sub : ts.length - 1 = K1 := by omega
    simp only [ConvertToCpp, unpack_tuple, make_tuple, horder, hfirst, hK1sub]
  · intro hlt hok
    obtain ⟨b, hb⟩ : ∃ b, ts.length = jl_nfields julia_val + (b + 1) :=
      ⟨ts.length - jl_nfields julia_val - 1, by omega⟩
    have horder : (EvalOrder.left_to_right : EvalOrder T).order ts
        = List.range (jl_nfields julia_val)
          ++ (jl_nfields julia_val :: (List.map Nat.succ (List.range b)).map
                (fun x => jl_nfields julia_val + x)) := by
      show List.range ts.length = _
      rw [hb, List.range_add, List.range_succ_eq_map]
      rfl
    have hmiss := unpack_args_missing B EvalOrder.left_to_right ts julia_val
      (jl_nfields julia_val) hlt (le_refl _)
    have hpre : ∀ k ∈ List.range (jl_nfields julia_val), ∀ e,
        (unpack_args B EvalOrder.left_to_right ts 0 julia_val)[k]? ≠ some (.error e) := by
      intro k hk e
      have hkn : k < jl_nfields julia_val := List.mem_range.1 hk
      exact unpack_args_present B EvalOrder.left_to_right ts julia_val hok k (by omega) hkn e
    have hfirst : first_thrown ((EvalOrder.left_to_right : EvalOrder T).order ts)
        (unpack_args B EvalOrder.left_to_right ts 0 julia_val)
        = some (.field_access (jl_nfields julia_val)) := by
      rw [horder, first_thrown_append _ _ _ hpre]
      exact first_thrown_head _ _ _ _ hmiss
    simp only [ConvertToCpp, unpack_tuple, make_tuple, hfirst]
  · intro hle xs hxs
    have hargs := unpack_args_eq_zip B O julia_val ts 0 (by omega)
    rw [List.drop_zero, hxs] at hargs
    simp only [ConvertToCpp, unpack_tuple, hargs, make_tuple_map_ok]
  · intro hle dt
    have hargs : unpack_args B O ts 0 julia_val
        = unpack_args B O ts 0 (jl_new_structv dt ((jl_fields julia_val).take ts.length)) := by
      apply unpack_args_congr
      intro n _ hn
      simp only [jl_new_structv, jl_fields]
      rw [List.getElem?_take]
      simp at hn
      simp [hn]
    simp only [ConvertToCpp, unpack_tuple, hargs]

/-- Witness for C5 as amended.  A target of arity `3` and a host tuple with one
field: the failure is the field-access error at index `2` when the arguments
are evaluated from the last to the first and at index `1` when they are
evaluated from the first to the last.  A target of arity `2` and a host tuple
whose only field does not unbox: the failure is the field-access error at index
`1` from the last to the first, and the unboxing failure of field `0` from the
first to the last.  A target of arity `1` and a host tuple with two fields: the
conversion returns the record of the first field. -/
theorem ConvertToCpp_arity_witness :
    (ConvertToCpp sampleBoxing EvalOrder.right_to_left [.leaf 0, .leaf 0, .leaf 0]
        (jl_new_structv (.tuple [.named 0]) [.leaf (.named 0) 5])
      = (.error (.field_access 2) : Except ConvError (List (CppVal Nat Int)))) ∧
    (ConvertToCpp sampleBoxing EvalOrder.left_to_right [.leaf 0, .leaf 0, .leaf 0]
        (jl_new_structv (.tuple [.named 0]) [.leaf (.named 0) 5])
      = (.error (.field_access 1) : Except ConvError (List (CppVal Nat Int)))) ∧
    (ConvertToCpp sampleBoxing EvalOrder.right_to_left [.leaf 0, .leaf 0]
        (jl_new_structv (.tuple [.tuple []]) [jl_new_structv (.tuple []) []])
      = (.error (.field_access 1) : Except ConvError (List (CppVal Nat Int)))) ∧
    (ConvertToCpp sampleBoxing EvalOrder.left_to_right [.leaf 0, .leaf 0]
        (jl_new_structv (.tuple [.tuple []]) [jl_new_structv (.tuple []) []])
      = (.error .type_mismatch : Except ConvError (List (CppVal Nat Int)))) ∧
    (ConvertToCpp sampleBoxing EvalOrder.right_to_left [.leaf 0]
        (jl_new_structv (.tuple [.named 0, .named 0]) [.leaf (.named 0) 5, .leaf (.named 0) 6])
      = .ok [.leaf 0 5]) :=
  ⟨(ConvertToCpp_arity sampleBoxing EvalOrder.right_to_left [.leaf 0, .leaf 0, .leaf 0]
      (jl_new_structv (.tuple [.named 0]) [.leaf (.named 0) 5])).2.2.1 (by decide),
   (ConvertToCpp_arity sampleBoxing EvalOrder.left_to_right [.leaf 0, .leaf 0, .leaf 0]
      (jl_new_structv (.tuple [.named 0]) [.leaf (.named 0) 5])).2.2.2.1 (by decide)
      (fun p hp => by
        have hp1 : p = (CppType.leaf 0, jl_value_t.leaf (.named 0) (5 : Int)) := by
          simpa [jl_new_structv, jl_fields] using hp
        exact ⟨.leaf 0 5, by rw [hp1]; rfl⟩),
   (ConvertToCpp_arity sampleBoxing EvalOrder.right_to_left [.leaf 0, .leaf 0]
      (jl_new_structv (.tuple [.tuple []]) [jl_new_structv (.tuple []) []])).2.2.1 (by decide),
   rfl,
   (ConvertToCpp_arity sampleBoxing EvalOrder.right_to_left [.leaf 0]
      (jl_new_structv (.tuple [.named 0, .named 0])
        [.leaf (.named 0) 5, .leaf (.named 0) 6])).2.2.2.2.1 (by decide) [.leaf 0 5] rfl⟩
end jlcxx
